import Mathlib

set_option maxHeartbeats 1000000

/- Verification of the change extraction, grouping, threshold gating and
   multi-commit execution engine of the repository. The definitions below are
   shallow embeddings of the Python source in src/backend; external effects
   (git subcommands, the LLM, the file system) are modelled as oracle
   parameters so every definition is an executable pure function. String
   primitives of Python (split, strip, startswith, replace, lower) are
   reimplemented over character lists by structural recursion so that all
   definitions evaluate inside the kernel. -/

namespace CommitSplit

/-- Boolean test that the first character list occurs at the head of the second. -/
def charsHasPre : List Char → List Char → Bool
  | [], _ => true
  | _ :: _, [] => false
  | a :: as, b :: bs => a == b && charsHasPre as bs

/-- Boolean substring occurrence on character lists, modelling the Python
string membership operator. -/
def charsContains : List Char → List Char → Bool
  | [], sub => sub.isEmpty
  | a :: rest, sub => charsHasPre sub (a :: rest) || charsContains rest sub

/-- String containment test: models the Python expression `sub in s`. -/
def strContains (s sub : String) : Bool :=
  charsContains s.toList sub.toList

/-- Split a character list at every occurrence of a separator character,
keeping empty pieces, as the Python split method with an explicit separator does. -/
def splitOnChar (sep : Char) : List Char → List (List Char)
  | [] => [[]]
  | c :: cs =>
    match splitOnChar sep cs with
    | [] => [[]]
    | r :: rs => if c == sep then [] :: r :: rs else (c :: r) :: rs

/-- Python style split of a string on a single separator character. -/
def pySplit (s : String) (sep : Char) : List String :=
  (splitOnChar sep s.toList).map String.mk

/-- Python str.strip for the common whitespace characters. -/
def pyStrip (s : String) : String :=
  String.mk (((s.toList.dropWhile Char.isWhitespace).reverse.dropWhile
    Char.isWhitespace).reverse)

/-- Python str.startswith. -/
def pyStartsWith (s pre : String) : Bool :=
  charsHasPre pre.toList s.toList

/-- Fuelled worker for replacing every occurrence of a pattern. -/
def charsReplaceAux : Nat → List Char → List Char → List Char → List Char
  | 0, l, _, _ => l
  | _ + 1, [], _, _ => []
  | n + 1, c :: cs, pat, rep =>
    if !pat.isEmpty && charsHasPre pat (c :: cs) then
      rep ++ charsReplaceAux n ((c :: cs).drop pat.length) pat rep
    else c :: charsReplaceAux n cs pat rep

/-- Python str.replace: every occurrence of the pattern is replaced. -/
def pyReplace (s pat rep : String) : String :=
  String.mk (charsReplaceAux s.toList.length s.toList pat.toList rep.toList)

/-- Python str.lower for ASCII text. -/
def pyLower (s : String) : String :=
  String.mk (s.toList.map Char.toLower)

/-- Numeric value of a list of decimal digit characters. -/
def digitsVal (ds : List Char) : Nat :=
  ds.foldl (fun n c => n * 10 + (c.toNat - 48)) 0

/-- Worker collecting maximal runs of decimal digits, in order. -/
def digitRunsAux : List Char → List Char → List Nat
  | [], acc => if acc.isEmpty then [] else [digitsVal acc.reverse]
  | c :: cs, acc =>
    if c.isDigit then digitRunsAux cs (c :: acc)
    else if acc.isEmpty then digitRunsAux cs []
    else digitsVal acc.reverse :: digitRunsAux cs []

/-- Maximal digit runs of a string, as numbers, modelling the Python
idiom of finding all digit groups in a text and converting them with int. -/
def digitRuns (s : String) : List Nat :=
  digitRunsAux s.toList []

/-- FileChange from intelligent_commit_splitter.py: one file delta. -/
structure FileChange where
  file_path : String
  change_type : String
  before_content : Option String := none
  after_content : Option String := none
  diff_content : String := ""
  total_lines_added : Nat := 0
  total_lines_removed : Nat := 0
deriving DecidableEq

/-- CommitGroup from intelligent_commit_splitter.py: one logical group of
changes intended to become one commit. -/
structure CommitGroup where
  feature_name : String
  description : String
  files : List FileChange
  commit_title : String
  commit_message : String
deriving DecidableEq

/-- One step of the line loop of CerebrasLLM.generate_commit_message: a line
starting with TITLE: sets the title, one starting with MESSAGE: sets the
message, anything else is ignored. -/
def parseStep (tm : String × String) (line : String) : String × String :=
  let l := pyStrip line
  if pyStartsWith l "TITLE:" then (pyStrip (pyReplace l "TITLE:" ""), tm.2)
  else if pyStartsWith l "MESSAGE:" then (tm.1, pyStrip (pyReplace l "MESSAGE:" ""))
  else tm

/-- CerebrasLLM.generate_commit_message. The argument llmContent is the text
returned by the chat completion (an abstract oracle value); none models the
call raising an exception, which the except branch of the source turns into
the deterministic fallback pair. -/
def generate_commit_message (llmContent : Option String) (feature_name : String) :
    String × String :=
  match llmContent with
  | none => ("feat: " ++ feature_name, "Changes related to " ++ feature_name)
  | some raw =>
    let content := pyStrip raw
    let tm := (pySplit content '\n').foldl parseStep ("", "")
    let title := if tm.1 = "" then "feat: " ++ feature_name else tm.1
    let message := if tm.2 = "" then "Changes related to " ++ feature_name else tm.2
    (title, message)

/-- Components of a posix path as produced by pathlib Path.parts for the
relative paths git emits: empty components and single dots are dropped, a
leading slash is kept as a component of its own. -/
def pathParts (p : String) : List String :=
  let comps := (pySplit p '/').filter (fun s => s != "" && s != ".")
  if pyStartsWith p "/" then "/" :: comps else comps

/-- Index of the last dot of a file name, if any. -/
def lastDotPos (cs : List Char) : Option Nat :=
  ((List.range cs.length).filter (fun i => cs.getD i ' ' == '.')).getLast?

/-- Extension of a path as computed by pathlib Path.suffix: the part of the
final component from its last dot, provided that dot is neither the first
nor the last character of the name. -/
def pathSuffix (p : String) : String :=
  let name := (pathParts p).getLastD ""
  let cs := name.toList
  match lastDotPos cs with
  | some i => if 0 < i ∧ i + 1 < cs.length then String.mk (cs.drop i) else ""
  | none => ""

/-- IntelligentCommitSplitter.determine_group_key: deterministic group key of
a file, first by top-level directory alias, then by extension, else other. -/
def determine_group_key (file_path : String) : String :=
  let path_parts := pathParts file_path
  let byDir : Option String :=
    if path_parts.length > 1 then
      let top_dir := pyLower (path_parts.headD "")
      if top_dir ∈ ["frontend", "client", "ui", "src", "components"] then some "frontend"
      else if top_dir ∈ ["backend", "server", "api", "services"] then some "backend"
      else if top_dir ∈ ["docs", "documentation", "readme"] then some "documentation"
      else if top_dir ∈ ["tests", "test", "spec"] then some "testing"
      else if top_dir ∈ ["config", "conf", "settings"] then some "configuration"
      else if top_dir ∈ ["scripts", "tools", "utils"] then some "utilities"
      else none
    else none
  match byDir with
  | some k => k
  | none =>
    let file_ext := pyLower (pathSuffix file_path)
    if file_ext ∈ [".py", ".js", ".ts", ".jsx", ".tsx", ".java", ".cpp", ".c"] then "code"
    else if file_ext ∈ [".md", ".txt", ".rst"] then "documentation"
    else if file_ext ∈ [".json", ".yaml", ".yml", ".toml", ".ini"] then "configuration"
    else "other"


/-- Insert a change into the bucket of its key, or open a fresh bucket at the
end, exactly as the Python dict of lists in group_changes_heuristic does:
keys keep their first-seen order and files are appended to their bucket. -/
def addToGroups : List (String × List FileChange) → String → FileChange →
    List (String × List FileChange)
  | [], k, c => [(k, [c])]
  | (k', fs) :: rest, k, c =>
    if k' = k then (k', fs ++ [c]) :: rest
    else (k', fs) :: addToGroups rest k c

/-- One loop iteration of group_changes_heuristic: file the change under the
key determined from its path. -/
def stepGroup (gs : List (String × List FileChange)) (c : FileChange) :
    List (String × List FileChange) :=
  addToGroups gs (determine_group_key c.file_path) c

/-- Bucket map built by the loop of group_changes_heuristic. -/
def buildGroups (changes : List FileChange) : List (String × List FileChange) :=
  changes.foldl stepGroup []

/-- IntelligentCommitSplitter.group_changes_heuristic. The llm oracle stands
for the chat completion call made by generate_commit_message for each group:
it is given the file list, the group key and the semantic summary and returns
the raw response content, or none when the call raises. -/
def group_changes_heuristic (llm : List FileChange → String → String → Option String)
    (changes : List FileChange) (semantic_summary : String) : List CommitGroup :=
  (buildGroups changes).map (fun g =>
    let tm := generate_commit_message (llm g.2 g.1 semantic_summary) g.1
    { feature_name := g.1
      description := "Changes related to " ++ g.1
      files := g.2
      commit_title := tm.1
      commit_message := tm.2 })

/-- Read-only view of one git checkout, as consumed by the change extractor.
Each field is the parsed result of one git subcommand or file read:
unstagedFiles is git diff --name-only, stagedFiles is git diff --cached
--name-only, untrackedFiles is git ls-files --others --exclude-standard,
lsFiles tells whether git ls-files prints a non-empty result for the path
(membership in the index), showAt is git show HEAD:path with none for a
failing subcommand, diffOf is git diff --unified=3 path (empty on failure),
showIndex is git show :path with none for a non-zero exit, and readFile is a
direct file read with none when it raises. -/
structure GitRepo where
  unstagedFiles : List String := []
  stagedFiles : List String := []
  untrackedFiles : List String := []
  lsFiles : String → Bool := fun _ => false
  showAt : String → Option String := fun _ => none
  diffOf : String → String := fun _ => ""
  showIndex : String → Option String := fun _ => none
  readFile : String → Option String := fun _ => none

/-- Keep the first occurrence of every path, dropping later duplicates, as
the seen-set loop of get_git_diff_files does. -/
def dedupFirst (seen : List String) : List String → List String
  | [] => []
  | f :: rest =>
    if f ∈ seen then dedupFirst seen rest
    else f :: dedupFirst (seen ++ [f]) rest

/-- IntelligentCommitSplitter.get_git_diff_files: unstaged, staged and
untracked paths concatenated in that order, first occurrence kept. -/
def get_git_diff_files (repo : GitRepo) : List String :=
  dedupFirst [] (repo.unstagedFiles ++ repo.stagedFiles ++ repo.untrackedFiles)

/-- IntelligentCommitSplitter.determine_change_type, as implemented: the
boolean is the git ls-files test (index membership), the option is the
content of the file at HEAD. -/
def determine_change_type (repo : GitRepo) (file_path : String) : String :=
  let file_exists_in_git := repo.lsFiles file_path
  let head_content := repo.showAt file_path
  if !file_exists_in_git ∧ head_content = none then "added"
  else if file_exists_in_git ∧ head_content = none then "deleted"
  else "modified"

/-- Count of diff lines starting with a plus, excluding the +++ header. -/
def countDiffAdded (diff : String) : Nat :=
  ((pySplit diff '\n').filter
    (fun l => pyStartsWith l "+" && !pyStartsWith l "+++")).length

/-- Count of diff lines starting with a minus, excluding the --- header. -/
def countDiffRemoved (diff : String) : Nat :=
  ((pySplit diff '\n').filter
    (fun l => pyStartsWith l "-" && !pyStartsWith l "---")).length

/-- Body of the per-file loop of IntelligentCommitSplitter.extract_changes. -/
def mkFileChange (repo : GitRepo) (file_path : String) : FileChange :=
  let change_type := determine_change_type repo file_path
  let diff_content := repo.diffOf file_path
  let before_content := if change_type ≠ "added" then repo.showAt file_path else none
  let after_content :=
    if change_type ≠ "deleted" then
      match repo.showIndex file_path with
      | some s => some s
      | none => repo.readFile file_path
    else none
  { file_path := file_path
    change_type := change_type
    before_content := before_content
    after_content := after_content
    diff_content := diff_content
    total_lines_added := countDiffAdded diff_content
    total_lines_removed := countDiffRemoved diff_content }

/-- IntelligentCommitSplitter.extract_changes. -/
def extract_changes (repo : GitRepo) : List FileChange :=
  (get_git_diff_files repo).map (mkFileChange repo)

/-- Line count of an optional text, as the claim about untracked files reads
it: the Python length of content split on newlines, zero when absent. -/
def totalLineCount : Option String → Nat
  | some s => (pySplit s '\n').length
  | none => 0

/-- One entry of the per-file breakdown produced by
CerebrasToolCaller. check_changes_threshold_implementation. -/
structure StatFile where
  file : String
  lines_added : Nat
  lines_removed : Nat
  ftype : String
deriving DecidableEq

/-- Parse of one git diff --stat output line by the threshold gate: the line
must contain a pipe and the word changed, be split on pipes, and its second
field must hold at least two digit runs, which become the added and removed
counts. -/
def parseStatLine (ty : String) (line : String) : Option StatFile :=
  if strContains line "|" && strContains line "changed" then
    let parts := pySplit line '|'
    if parts.length ≥ 2 then
      let file_name := pyStrip (parts.headD "")
      let stats := pyStrip (parts.getD 1 "")
      let numbers := digitRuns stats
      if numbers.length ≥ 2 then
        some ⟨file_name, numbers.headD 0, numbers.getD 1 0, ty⟩
      else none
    else none
  else none

/-- Loop body over one stat output line: a parsed entry is added to both
running totals and to the breakdown, anything else leaves the state alone. -/
def statStep (ty : String) (a : Nat × Nat × List StatFile) (line : String) :
    Nat × Nat × List StatFile :=
  match parseStatLine ty line with
  | some sf => (a.1 + sf.lines_added, a.2.1 + sf.lines_removed, a.2.2 ++ [sf])
  | none => a

/-- Loop of the threshold gate over the lines of one stat output. -/
def procStatLines (ty : String) (out : String) (acc : Nat × Nat × List StatFile) :
    Nat × Nat × List StatFile :=
  (pySplit out '\n').foldl (statStep ty) acc

/-- Breakdown entry for one untracked file: a readable file contributes its
full line count as additions, an unreadable one is counted as one added line;
removals are never counted for untracked files. -/
def untrackedEntry (pc : String × Option String) : StatFile :=
  match pc.2 with
  | some content => ⟨pc.1, (pySplit content '\n').length, 0, "new"⟩
  | none => ⟨pc.1, 1, 0, "new"⟩

/-- Loop body of the threshold gate over one untracked file: only the added
total grows, exactly as the Python loop only increments total_lines_added. -/
def newStep (a : Nat × Nat × List StatFile) (pc : String × Option String) :
    Nat × Nat × List StatFile :=
  let sf := untrackedEntry pc
  (a.1 + sf.lines_added, a.2.1, a.2.2 ++ [sf])

/-- Result dictionary of the threshold gate on its success path. -/
structure ThresholdReport where
  success : Bool
  total_lines_added : Nat
  total_lines_removed : Nat
  total_changes : Nat
  threshold : Int
  exceeds_threshold : Bool
  changed_files : List StatFile
  file_count : Nat
  new_files_count : Nat
  modified_files_count : Nat
  recommendation : String
deriving DecidableEq

/-- CerebrasToolCaller. check_changes_threshold_implementation on its success
path. The inputs are the raw stdout of git diff --stat, the raw stdout of
git diff --cached --stat, the untracked paths paired with their readable
content (none when reading raises), and the threshold. -/
def check_changes_threshold_implementation (diffStat stagedStat : String)
    (untracked : List (String × Option String)) (threshold : Int) : ThresholdReport :=
  let a1 := procStatLines "modified" diffStat (0, 0, [])
  let a2 := procStatLines "staged" stagedStat a1
  let a3 := untracked.foldl newStep a2
  let total_lines_added := a3.1
  let total_lines_removed := a3.2.1
  let changed_files := a3.2.2
  let total_changes := total_lines_added + total_lines_removed
  let exceeds_threshold : Bool := decide ((total_changes : Int) > threshold)
  { success := true
    total_lines_added := total_lines_added
    total_lines_removed := total_lines_removed
    total_changes := total_changes
    threshold := threshold
    exceeds_threshold := exceeds_threshold
    changed_files := changed_files
    file_count := changed_files.length
    new_files_count := (changed_files.filter (fun f => f.ftype == "new")).length
    modified_files_count :=
      (changed_files.filter (fun f => f.ftype == "modified" || f.ftype == "staged")).length
    recommendation :=
      if exceeds_threshold then "intelligent_commit_split" else "regular_commit" }

/-- Git subcommands issued by IntelligentCommitSplitter.execute_commit_splitting. -/
inductive GitCmd where
  | revParseAbbrevHead : GitCmd
  | checkoutNewBranch : String → GitCmd
  | checkout : String → GitCmd
  | reset : GitCmd
  | rm : String → GitCmd
  | add : String → GitCmd
  | diffCachedNameOnly : GitCmd
  | commit : String → GitCmd
  | push : String → GitCmd
deriving DecidableEq

/-- Oracle for the outcome of each git subcommand: given the commands already
run and the command now issued, it yields the stdout text on success or none
for a subprocess failure. -/
def GitEnv : Type := List GitCmd → GitCmd → Option String

/-- Issue one command: extend the history and ask the oracle. -/
def runCmd (env : GitEnv) (hist : List GitCmd) (c : GitCmd) :
    List GitCmd × Option String :=
  (hist ++ [c], env hist c)

/-- Observable outcome of one group in the executor loop. -/
inductive GroupOutcome where
  | committed : GroupOutcome
  | skippedEmpty : GroupOutcome
  | failed : GroupOutcome
deriving DecidableEq

/-- Staging loop of one group: deleted files are staged with git rm, all
others with git add; the first failing subcommand aborts the staging of the
group. -/
def stageFiles (env : GitEnv) (hist : List GitCmd) :
    List FileChange → List GitCmd × Bool
  | [] => (hist, true)
  | fc :: rest =>
    let step := runCmd env hist
      (if fc.change_type = "deleted" then GitCmd.rm fc.file_path
       else GitCmd.add fc.file_path)
    match step.2 with
    | none => (step.1, false)
    | some _ => stageFiles env step.1 rest

/-- Body of the per-group loop of execute_commit_splitting: reset the staging
area, stage the files of the group, skip the commit when nothing is staged,
otherwise commit with the composed title and message; any subprocess failure
makes the group fail without stopping the run. -/
def runGroup (env : GitEnv) (hist : List GitCmd) (g : CommitGroup) :
    List GitCmd × GroupOutcome :=
  let r1 := runCmd env hist GitCmd.reset
  match r1.2 with
  | none => (r1.1, GroupOutcome.failed)
  | some _ =>
    let st := stageFiles env r1.1 g.files
    if st.2 then
      let r3 := runCmd env st.1 GitCmd.diffCachedNameOnly
      match r3.2 with
      | none => (r3.1, GroupOutcome.failed)
      | some out =>
        if pyStrip out = "" then (r3.1, GroupOutcome.skippedEmpty)
        else
          let msg := g.commit_title ++ "\n\n" ++ g.commit_message
          let r4 := runCmd env r3.1 (GitCmd.commit msg)
          match r4.2 with
          | none => (r4.1, GroupOutcome.failed)
          | some _ => (r4.1, GroupOutcome.committed)
    else (st.1, GroupOutcome.failed)

/-- The executor loop over all groups, in order, collecting one outcome per
group. -/
def runGroups (env : GitEnv) (hist : List GitCmd) :
    List CommitGroup → List GitCmd × List GroupOutcome
  | [] => (hist, [])
  | g :: rest =>
    let r := runGroup env hist g
    let rs := runGroups env r.1 rest
    (rs.1, r.2 :: rs.2)

/-- Observable result of one executor run: the boolean the Python function
returns, the backup branch name once it has been created, the per-group
outcomes, and the full command history. -/
structure ExecResult where
  success : Bool
  backupBranch : Option String
  outcomes : List GroupOutcome
  hist : List GitCmd
deriving DecidableEq

/-- IntelligentCommitSplitter.execute_commit_splitting: read the current
branch, create the backup branch and return to the original branch (failure
of any of these aborts the run), then run the per-group loop, then push when
requested and at least one commit succeeded. -/
def execute_commit_splitting (env : GitEnv) (pid : Nat) (auto_push : Bool)
    (commit_groups : List CommitGroup) : ExecResult :=
  let r1 := runCmd env [] GitCmd.revParseAbbrevHead
  match r1.2 with
  | none => ⟨false, none, [], r1.1⟩
  | some out =>
    let current_branch := pyStrip out
    let backup_branch := "backup-before-split-" ++ toString pid
    let r2 := runCmd env r1.1 (GitCmd.checkoutNewBranch backup_branch)
    match r2.2 with
    | none => ⟨false, none, [], r2.1⟩
    | some _ =>
      let r3 := runCmd env r2.1 (GitCmd.checkout current_branch)
      match r3.2 with
      | none => ⟨false, none, [], r3.1⟩
      | some _ =>
        let loop := runGroups env r3.1 commit_groups
        let successful_commits := loop.2.count GroupOutcome.committed
        if auto_push && decide (0 < successful_commits) then
          let rp := runCmd env loop.1 (GitCmd.push current_branch)
          match rp.2 with
          | none => ⟨false, some backup_branch, loop.2, rp.1⟩
          | some _ => ⟨decide (0 < successful_commits), some backup_branch, loop.2, rp.1⟩
        else ⟨decide (0 < successful_commits), some backup_branch, loop.2, loop.1⟩

/-- Invariant of one bucket of the grouping dict: every file in the bucket
has the bucket key as its group key. -/
def bucketInv (b : String × List FileChange) : Prop :=
  ∀ c ∈ b.2, determine_group_key c.file_path = b.1

/-- Oracle standing for an LLM that always raises. -/
def llm0 : List FileChange → String → String → Option String :=
  fun _ _ _ => none

/-- Two concrete extracted changes used to instantiate the partition theorem. -/
def changes0 : List FileChange :=
  [{ file_path := "backend/a.py", change_type := "modified" },
   { file_path := "README.md", change_type := "added" }]

/-- Checkout with one staged new file: the path is in the index and absent
from HEAD. -/
def repoStagedAdd : GitRepo :=
  { stagedFiles := ["app.py"], lsFiles := fun p => p == "app.py" }

/-- Checkout with one staged deletion: the path is absent from the index and
present at HEAD. -/
def repoStagedDelete : GitRepo :=
  { unstagedFiles := ["old.py"],
    showAt := fun p => if p == "old.py" then some "old text\n" else none }

/-- Checkout with a single untracked file whose working copy is readable. -/
def repoC7 : GitRepo :=
  { untrackedFiles := ["n.txt"],
    readFile := fun p => if p == "n.txt" then some "x\n" else none }

/-- The change the extractor produces on repoC7. -/
def cC7 : FileChange := mkFileChange repoC7 "n.txt"

/-- Checkout with a single untracked three-line file; git diff on an
untracked path prints nothing, so its diff is empty. -/
def repoU : GitRepo :=
  { untrackedFiles := ["new.txt"],
    readFile := fun p => if p == "new.txt" then some "a\nb\nc" else none }

/-- The change the extractor produces on repoU. -/
def cU : FileChange := mkFileChange repoU "new.txt"

/-- Git oracle on which creating the backup branch fails and everything else
succeeds. -/
def envBackupFail : GitEnv := fun _ c =>
  match c with
  | GitCmd.checkoutNewBranch _ => none
  | _ => some "main\n"

/-- First commit group of the executor scenario. -/
def grp1 : CommitGroup :=
  ⟨"backend", "d1", [{ file_path := "backend/a.py", change_type := "modified" }], "t1", "m1"⟩

/-- Second commit group of the executor scenario; its commit subcommand is
the one envMidFail rejects. -/
def grp2 : CommitGroup :=
  ⟨"documentation", "d2", [{ file_path := "docs/b.md", change_type := "modified" }], "t2", "m2"⟩

/-- Third commit group of the executor scenario. -/
def grp3 : CommitGroup :=
  ⟨"other", "d3", [{ file_path := "c.txt", change_type := "added" }], "t3", "m3"⟩

/-- Git oracle on which exactly the commit of grp2 fails: every subcommand
succeeds except the commit whose message is composed from grp2. -/
def envMidFail : GitEnv := fun _ c =>
  match c with
  | GitCmd.commit m => if m == "t2\n\nm2" then none else some ""
  | GitCmd.revParseAbbrevHead => some "main\n"
  | GitCmd.diffCachedNameOnly => some "staged.py\n"
  | _ => some ""

/-- Lines that never match the TITLE pattern leave the title component of the
parse state unchanged. -/
theorem foldl_parseStep_fst : ∀ (lines : List String) (init : String × String),
    (∀ l ∈ lines, pyStartsWith (pyStrip l) "TITLE:" = false) →
    (lines.foldl parseStep init).1 = init.1
  | [], _, _ => rfl
  | l :: ls, init, h => by
    have hl : pyStartsWith (pyStrip l) "TITLE:" = false := h l (by simp)
    have step1 : (parseStep init l).1 = init.1 := by
      by_cases h2 : pyStartsWith (pyStrip l) "MESSAGE:" = true
      · simp [parseStep, hl, h2]
      · simp [parseStep, hl, h2]
    rw [List.foldl_cons,
      foldl_parseStep_fst ls _ (fun x hx => h x (List.mem_cons_of_mem _ hx)), step1]

/-- Lines that never match the MESSAGE pattern leave the message component of
the parse state unchanged. -/
theorem foldl_parseStep_snd : ∀ (lines : List String) (init : String × String),
    (∀ l ∈ lines, pyStartsWith (pyStrip l) "MESSAGE:" = false) →
    (lines.foldl parseStep init).2 = init.2
  | [], _, _ => rfl
  | l :: ls, init, h => by
    have hl : pyStartsWith (pyStrip l) "MESSAGE:" = false := h l (by simp)
    have step1 : (parseStep init l).2 = init.2 := by
      by_cases h2 : pyStartsWith (pyStrip l) "TITLE:" = true
      · simp [parseStep, hl, h2]
      · simp [parseStep, hl, h2]
    rw [List.foldl_cons,
      foldl_parseStep_snd ls _ (fun x hx => h x (List.mem_cons_of_mem _ hx)), step1]

/-- Inserting one change moves the concatenated bucket contents by exactly
that change, up to permutation. -/
theorem addToGroups_join (gs : List (String × List FileChange)) (k : String) (c : FileChange) :
    List.Perm (((addToGroups gs k c).map Prod.snd).flatten) ((gs.map Prod.snd).flatten ++ [c]) := by
  induction gs with
  | nil => simp [addToGroups]
  | cons b rest ih =>
    obtain ⟨k', fs⟩ := b
    by_cases h : k' = k
    · simp only [addToGroups, if_pos h, List.map_cons, List.flatten_cons]
      rw [List.append_assoc, List.append_assoc]
      exact List.Perm.append_left fs List.perm_append_comm
    · simp only [addToGroups, if_neg h, List.map_cons, List.flatten_cons]
      rw [List.append_assoc]
      exact List.Perm.append_left fs ih

/-- The bucket contents accumulated by the grouping loop are a permutation of
the initial contents followed by the consumed changes. -/
theorem buildGroups_join_aux : ∀ (cs : List FileChange) (gs : List (String × List FileChange)),
    List.Perm (((cs.foldl stepGroup gs).map Prod.snd).flatten) ((gs.map Prod.snd).flatten ++ cs)
  | [], gs => by simp
  | c :: cs, gs => by
    rw [List.foldl_cons]
    have h1 := buildGroups_join_aux cs (stepGroup gs c)
    have h2 : List.Perm (((stepGroup gs c).map Prod.snd).flatten) ((gs.map Prod.snd).flatten ++ [c]) :=
      addToGroups_join gs _ c
    have h3 := h1.trans (h2.append_right cs)
    rw [List.append_assoc, List.singleton_append] at h3
    exact h3

/-- Key membership after an insertion. -/
theorem mem_keys_addToGroups (gs : List (String × List FileChange)) (k a : String) (c : FileChange) :
    a ∈ (addToGroups gs k c).map Prod.fst ↔ a ∈ gs.map Prod.fst ∨ a = k := by
  induction gs with
  | nil => simp [addToGroups]
  | cons b rest ih =>
    obtain ⟨k', fs⟩ := b
    by_cases h : k' = k
    · subst h
      simp [addToGroups]
      tauto
    · simp [addToGroups, h, ih]
      tauto

/-- Insertion keeps the bucket keys without duplicates. -/
theorem nodup_keys_addToGroups (gs : List (String × List FileChange)) (k : String)
    (c : FileChange) (h : (gs.map Prod.fst).Nodup) :
    ((addToGroups gs k c).map Prod.fst).Nodup := by
  induction gs with
  | nil => simp [addToGroups]
  | cons b rest ih =>
    obtain ⟨k', fs⟩ := b
    simp only [List.map_cons, List.nodup_cons] at h
    by_cases hk : k' = k
    · simp only [addToGroups, if_pos hk, List.map_cons, List.nodup_cons]
      exact ⟨h.1, h.2⟩
    · simp only [addToGroups, if_neg hk, List.map_cons, List.nodup_cons]
      refine ⟨?_, ih h.2⟩
      rw [mem_keys_addToGroups]
      rintro (hmem | rfl)
      · exact h.1 hmem
      · exact hk rfl

/-- Insertion preserves the bucket invariant when the inserted change carries
the key it is filed under. -/
theorem bucketInv_addToGroups (gs : List (String × List FileChange)) (k : String)
    (c : FileChange) (hc : determine_group_key c.file_path = k)
    (h : ∀ b ∈ gs, bucketInv b) : ∀ b ∈ addToGroups gs k c, bucketInv b := by
  induction gs with
  | nil =>
    intro b hb
    simp only [addToGroups, List.mem_singleton] at hb
    subst hb
    intro x hx
    simp only [List.mem_singleton] at hx
    subst hx
    exact hc
  | cons b0 rest ih =>
    obtain ⟨k', fs⟩ := b0
    by_cases hk : k' = k
    · intro b hb
      simp only [addToGroups, if_pos hk, List.mem_cons] at hb
      rcases hb with rfl | hb
      · intro x hx
        simp only [List.mem_append, List.mem_singleton] at hx
        rcases hx with hx | rfl
        · exact h (k', fs) (List.mem_cons_self _ _) x hx
        · show determine_group_key x.file_path = k'
          rw [hk]
          exact hc
      · exact h b (List.mem_cons_of_mem _ hb)
    · intro b hb
      simp only [addToGroups, if_neg hk, List.mem_cons] at hb
      rcases hb with rfl | hb
      · exact h (k', fs) (List.mem_cons_self _ _)
      · exact ih (fun b' hb' => h b' (List.mem_cons_of_mem _ hb')) b hb

/-- Every bucket built by the grouping loop satisfies the bucket invariant. -/
theorem buildGroups_inv_aux : ∀ (cs : List FileChange) (gs : List (String × List FileChange)),
    (∀ b ∈ gs, bucketInv b) → ∀ b ∈ cs.foldl stepGroup gs, bucketInv b
  | [], _, h => h
  | c :: cs, gs, h => by
    rw [List.foldl_cons]
    exact buildGroups_inv_aux cs _ (bucketInv_addToGroups gs _ c rfl h)

/-- The grouping loop keeps the bucket keys without duplicates. -/
theorem buildGroups_nodup_aux : ∀ (cs : List FileChange) (gs : List (String × List FileChange)),
    (gs.map Prod.fst).Nodup → ((cs.foldl stepGroup gs).map Prod.fst).Nodup
  | [], _, h => h
  | c :: cs, gs, h => by
    rw [List.foldl_cons]
    exact buildGroups_nodup_aux cs _ (nodup_keys_addToGroups gs _ c h)

/-- The executor loop yields exactly one outcome per group, whatever the
oracle answers: no failure aborts the loop. -/
theorem runGroups_length (env : GitEnv) : ∀ (groups : List CommitGroup) (hist : List GitCmd),
    (runGroups env hist groups).2.length = groups.length
  | [], _ => rfl
  | g :: rest, hist => by
    simp [runGroups, runGroups_length env rest]

/-- Closed form of the stat-line loop of the threshold gate: both running
totals grow by the sums over the parsed entries, and the breakdown is
extended by exactly those entries. -/
theorem foldl_statStep (ty : String) : ∀ (lines : List String) (a : Nat × Nat × List StatFile),
    lines.foldl (statStep ty) a =
      (a.1 + ((lines.filterMap (parseStatLine ty)).map StatFile.lines_added).sum,
       a.2.1 + ((lines.filterMap (parseStatLine ty)).map StatFile.lines_removed).sum,
       a.2.2 ++ lines.filterMap (parseStatLine ty))
  | [], a => by simp
  | l :: ls, a => by
    rcases h : parseStatLine ty l with _ | sf
    · have hs : statStep ty a l = a := by simp [statStep, h]
      rw [List.foldl_cons, hs, foldl_statStep ty ls a]
      simp [List.filterMap_cons, h]
    · have hs : statStep ty a l =
          (a.1 + sf.lines_added, a.2.1 + sf.lines_removed, a.2.2 ++ [sf]) := by
        simp [statStep, h]
      rw [List.foldl_cons, hs, foldl_statStep ty ls _]
      simp [List.filterMap_cons, h, Nat.add_assoc]

/-- Closed form of the untracked-file loop of the threshold gate: only the
added total grows, and the breakdown is extended by the new-file entries. -/
theorem foldl_newStep : ∀ (l : List (String × Option String)) (a : Nat × Nat × List StatFile),
    l.foldl newStep a =
      (a.1 + ((l.map untrackedEntry).map StatFile.lines_added).sum,
       a.2.1,
       a.2.2 ++ l.map untrackedEntry)
  | [], a => by simp
  | pc :: rest, a => by
    rw [List.foldl_cons]
    show List.foldl newStep (newStep a pc) rest = _
    rw [foldl_newStep rest _]
    simp [newStep, Nat.add_assoc]

/-- New-file breakdown entries never count removed lines. -/
theorem untrackedEntry_removed (pc : String × Option String) :
    (untrackedEntry pc).lines_removed = 0 := by
  rcases pc with ⟨p, _ | s⟩ <;> rfl

/-- Sum of removed lines over any list of new-file entries is zero. -/
theorem sum_untracked_removed (l : List (String × Option String)) :
    (l.map (StatFile.lines_removed ∘ untrackedEntry)).sum = 0 := by
  induction l with
  | nil => rfl
  | cons pc rest ih =>
    simp only [List.map_cons, List.sum_cons, Function.comp_apply, untrackedEntry_removed,
      Nat.zero_add]
    exact ih

/-- Pointwise sum of two counts distributes over the list sum. -/
theorem sum_map_add_counts (l : List StatFile) (f g : StatFile → Nat) :
    (l.map fun x => f x + g x).sum = (l.map f).sum + (l.map g).sum := by
  induction l with
  | nil => rfl
  | cons x rest ih =>
    simp only [List.map_cons, List.sum_cons, ih]
    omega

/-- C9: message generation never lets a narrator error escape and falls back
deterministically: a raised narrator call yields the pair
(feat: groupKey, Changes related to groupKey); a response without any line
whose stripped form starts with TITLE: yields commitTitle = feat: groupKey;
a response without any line whose stripped form starts with MESSAGE: yields
commitMessage = Changes related to groupKey. -/
theorem generate_commit_message_fallback (resp : Option String) (key : String) :
    (resp = none →
      generate_commit_message resp key =
        ("feat: " ++ key, "Changes related to " ++ key)) ∧
    (∀ content, resp = some content →
      ((∀ l ∈ pySplit (pyStrip content) '\n',
          pyStartsWith (pyStrip l) "TITLE:" = false) →
        (generate_commit_message resp key).1 = "feat: " ++ key) ∧
      ((∀ l ∈ pySplit (pyStrip content) '\n',
          pyStartsWith (pyStrip l) "MESSAGE:" = false) →
        (generate_commit_message resp key).2 = "Changes related to " ++ key)) := by
  constructor
  · rintro rfl
    rfl
  · rintro content rfl
    constructor
    · intro hno
      have h1 : ((pySplit (pyStrip content) '\n').foldl parseStep ("", "")).1 = "" :=
        foldl_parseStep_fst _ _ hno
      simp [generate_commit_message, h1]
    · intro hno
      have h2 : ((pySplit (pyStrip content) '\n').foldl parseStep ("", "")).2 = "" :=
        foldl_parseStep_snd _ _ hno
      simp [generate_commit_message, h2]

/-- C9 witness: a narrator answer with neither marker line produces both
fallback components for the group key auth. -/
theorem generate_commit_message_fallback_witness :
    generate_commit_message (some "model refused to cooperate") "auth" =
      ("feat: auth", "Changes related to auth") := by
  have h := (generate_commit_message_fallback (some "model refused to cooperate") "auth").2
    "model refused to cooperate" rfl
  have h1 := h.1 (by decide)
  have h2 := h.2 (by decide)
  exact Prod.ext_iff.mpr ⟨h1, h2⟩

/-- C2: evaluation of determine_change_type as implemented, on the two
disputed inputs. A path present in the index and absent at HEAD (a staged
new file) is classified deleted, not added as the specification demands; a
path absent from the index and present at HEAD (a staged deletion) is
classified modified, not deleted. -/
theorem determine_change_type_index_cells :
    determine_change_type repoStagedAdd "app.py" = "deleted" ∧
    determine_change_type repoStagedDelete "old.py" = "modified" := by
  constructor <;> rfl

/-- C7: every change the extractor produces hides the before content when it
is classified added and hides the after content when it is classified
deleted. -/
theorem extract_changes_content_absence (repo : GitRepo) (c : FileChange)
    (hc : c ∈ extract_changes repo) :
    (c.change_type = "added" → c.before_content = none) ∧
    (c.change_type = "deleted" → c.after_content = none) := by
  obtain ⟨p, _, rfl⟩ := List.mem_map.mp hc
  constructor
  · intro h
    simp only [mkFileChange] at h ⊢
    simp [h]
  · intro h
    simp only [mkFileChange] at h ⊢
    simp [h]

/-- C7 witness: the invariant instantiated on the single change extracted
from repoC7. -/
theorem extract_changes_content_absence_witness :
    (cC7.change_type = "added" → cC7.before_content = none) ∧
    (cC7.change_type = "deleted" → cC7.after_content = none) :=
  extract_changes_content_absence repoC7 cC7 (by decide)

/-- C8 counterexample: on a checkout with one untracked three-line file and
an empty diff, the extractor reports zero added lines, not the three lines
of the after content as the claim states. -/
theorem extract_untracked_empty_diff_counterexample :
    "new.txt" ∈ repoU.untrackedFiles ∧
    extract_changes repoU = [cU] ∧
    cU.diff_content = "" ∧
    totalLineCount cU.after_content = 3 ∧
    cU.total_lines_added = 0 ∧
    (0 : Nat) ≠ 3 := by
  refine ⟨by decide, by decide, by decide, by decide, by decide, by decide⟩

/-- C8 amended: for every untracked file whose unified diff is empty, the
extractor reports zero added and zero removed lines (the line counts come
from the diff text alone; the extractor has no fallback to the line count of
the after content). -/
theorem extract_untracked_empty_diff_counts (repo : GitRepo) (c : FileChange)
    (hmem : c ∈ extract_changes repo) (hunt : c.file_path ∈ repo.untrackedFiles)
    (hdiff : c.diff_content = "") :
    c.total_lines_added = 0 ∧ c.total_lines_removed = 0 := by
  obtain ⟨p, _, rfl⟩ := List.mem_map.mp hmem
  have hd : repo.diffOf p = "" := hdiff
  constructor
  · show countDiffAdded (repo.diffOf p) = 0
    rw [hd]
    rfl
  · show countDiffRemoved (repo.diffOf p) = 0
    rw [hd]
    rfl

/-- C8 amended witness: the zero counts on the concrete untracked file of
repoU. -/
theorem extract_untracked_empty_diff_counts_witness :
    cU.total_lines_added = 0 ∧ cU.total_lines_removed = 0 :=
  extract_untracked_empty_diff_counts repoU cU (by decide) (by decide) (by decide)

/-- Closed form of the full accumulation of the threshold gate: totals are
sums over the parsed modified, staged and new entries, and the breakdown is
their concatenation in that order. -/
theorem threshold_accum (d s : String) (u : List (String × Option String)) :
    u.foldl newStep (procStatLines "staged" s (procStatLines "modified" d (0, 0, []))) =
      ((((pySplit d '\n').filterMap (parseStatLine "modified")).map StatFile.lines_added).sum +
         (((pySplit s '\n').filterMap (parseStatLine "staged")).map StatFile.lines_added).sum +
         ((u.map untrackedEntry).map StatFile.lines_added).sum,
       (((pySplit d '\n').filterMap (parseStatLine "modified")).map StatFile.lines_removed).sum +
         (((pySplit s '\n').filterMap (parseStatLine "staged")).map StatFile.lines_removed).sum,
       (pySplit d '\n').filterMap (parseStatLine "modified") ++
         (pySplit s '\n').filterMap (parseStatLine "staged") ++ u.map untrackedEntry) := by
  simp only [procStatLines]
  rw [foldl_statStep, foldl_statStep, foldl_newStep]
  simp only [Prod.mk.injEq]
  refine ⟨by omega, by omega, by simp [List.append_assoc]⟩

/-- C3: the reported total of the threshold gate equals the sum of added
plus removed line counts over its whole per-file breakdown, in which new,
modified and staged entries all contribute alike; the added and removed
totals are likewise the sums of the per-file counts. -/
theorem threshold_total_is_sum (d s : String) (u : List (String × Option String)) (t : Int) :
    (check_changes_threshold_implementation d s u t).total_changes =
      ((check_changes_threshold_implementation d s u t).changed_files.map
        (fun f => f.lines_added + f.lines_removed)).sum ∧
    (check_changes_threshold_implementation d s u t).total_lines_added =
      ((check_changes_threshold_implementation d s u t).changed_files.map
        StatFile.lines_added).sum ∧
    (check_changes_threshold_implementation d s u t).total_lines_removed =
      ((check_changes_threshold_implementation d s u t).changed_files.map
        StatFile.lines_removed).sum := by
  have hacc := threshold_accum d s u
  simp only [check_changes_threshold_implementation, hacc]
  refine ⟨?_, ?_, ?_⟩
  · rw [sum_map_add_counts]
    simp only [List.map_append, List.sum_append, List.map_map, sum_untracked_removed]
    omega
  · simp only [List.map_append, List.sum_append, List.map_map]
  · simp only [List.map_append, List.sum_append, List.map_map, sum_untracked_removed]
    omega

/-- C3 witness: the sum identity on a concrete report with one modified
binary-stat line, one staged line and one untracked file. -/
theorem threshold_total_is_sum_witness :
    (check_changes_threshold_implementation " changed.bin | Bin 10 -> 25 bytes"
        " changed.py | 3 +++ changed" [("n.txt", some "a\nb")] 1000).total_changes =
      ((check_changes_threshold_implementation " changed.bin | Bin 10 -> 25 bytes"
        " changed.py | 3 +++ changed" [("n.txt", some "a\nb")] 1000).changed_files.map
          (fun f => f.lines_added + f.lines_removed)).sum :=
  (threshold_total_is_sum " changed.bin | Bin 10 -> 25 bytes"
    " changed.py | 3 +++ changed" [("n.txt", some "a\nb")] 1000).1

/-- C4: the gate reports exceedsThreshold exactly when the total is strictly
greater than the threshold, equality yields false, and the recommendation is
intelligent_commit_split exactly when the threshold is exceeded, else
regular_commit. -/
theorem threshold_exceeds_boundary (d s : String) (u : List (String × Option String)) (t : Int) :
    ((check_changes_threshold_implementation d s u t).exceeds_threshold = true ↔
      ((check_changes_threshold_implementation d s u t).total_changes : Int) > t) ∧
    (((check_changes_threshold_implementation d s u t).total_changes : Int) = t →
      (check_changes_threshold_implementation d s u t).exceeds_threshold = false) ∧
    ((check_changes_threshold_implementation d s u t).recommendation =
        "intelligent_commit_split" ↔
      (check_changes_threshold_implementation d s u t).exceeds_threshold = true) ∧
    ((check_changes_threshold_implementation d s u t).exceeds_threshold = false →
      (check_changes_threshold_implementation d s u t).recommendation = "regular_commit") := by
  have hex : (check_changes_threshold_implementation d s u t).exceeds_threshold =
      decide (((check_changes_threshold_implementation d s u t).total_changes : Int) > t) := rfl
  have hrec : (check_changes_threshold_implementation d s u t).recommendation =
      if decide (((check_changes_threshold_implementation d s u t).total_changes : Int) > t)
      then "intelligent_commit_split" else "regular_commit" := rfl
  refine ⟨?_, ?_, ?_, ?_⟩
  · rw [hex]
    exact decide_eq_true_iff
  · intro h
    rw [hex, h]
    simp
  · rw [hrec, hex]
    cases hb : decide (((check_changes_threshold_implementation d s u t).total_changes : Int) > t) with
    | false => simp
    | true => simp
  · intro h
    rw [hex] at h
    rw [hrec, h]
    rfl

/-- C4 witness: a changeset totalling exactly the threshold is not flagged
and receives the regular-commit recommendation. -/
theorem threshold_exceeds_boundary_witness :
    (check_changes_threshold_implementation "" "" [("a.txt", some "x\ny")] 2).exceeds_threshold
      = false ∧
    (check_changes_threshold_implementation "" "" [("a.txt", some "x\ny")] 2).recommendation
      = "regular_commit" := by
  have h := threshold_exceeds_boundary "" "" [("a.txt", some "x\ny")] 2
  have hb := h.2.1 (by decide)
  exact ⟨hb, h.2.2.2 hb⟩

/-- C10: an untracked file whose content cannot be read contributes exactly
one added line and no removed line to the totals, and still appears in the
per-file breakdown as a new entry; the gate drops nothing and, being a total
function of its inputs, never raises. -/
theorem threshold_unreadable_new_file (d s : String)
    (pre post : List (String × Option String)) (p : String) (t : Int) :
    ((⟨p, 1, 0, "new"⟩ : StatFile) ∈
      (check_changes_threshold_implementation d s (pre ++ (p, none) :: post) t).changed_files) ∧
    (check_changes_threshold_implementation d s (pre ++ (p, none) :: post) t).total_lines_added =
      (check_changes_threshold_implementation d s (pre ++ post) t).total_lines_added + 1 ∧
    (check_changes_threshold_implementation d s (pre ++ (p, none) :: post) t).total_lines_removed =
      (check_changes_threshold_implementation d s (pre ++ post) t).total_lines_removed ∧
    (check_changes_threshold_implementation d s (pre ++ (p, none) :: post) t).file_count =
      (check_changes_threshold_implementation d s (pre ++ post) t).file_count + 1 := by
  have h1 := threshold_accum d s (pre ++ (p, none) :: post)
  have h2 := threshold_accum d s (pre ++ post)
  simp only [check_changes_threshold_implementation, h1, h2]
  refine ⟨?_, ?_, ?_, ?_⟩
  · exact List.mem_append_right _
      (List.mem_map.mpr ⟨(p, none), by simp, rfl⟩)
  · simp only [List.map_append, List.sum_append, List.map_cons, List.sum_cons,
      List.map_map, Function.comp_apply, untrackedEntry]
    omega
  · trivial
  · simp only [List.length_append, List.map_append, List.map_cons, List.length_cons]
    omega

/-- C5: when the current branch is read but the backup branch cannot be
created, the run returns failure at once: no group outcome is produced and
the command history holds exactly the two setup commands, so no staging,
commit or push subcommand is ever issued. -/
theorem execute_backup_failure_aborts (env : GitEnv) (pid : Nat) (auto_push : Bool)
    (groups : List CommitGroup) (branchOut : String)
    (h1 : env [] GitCmd.revParseAbbrevHead = some branchOut)
    (h2 : env [GitCmd.revParseAbbrevHead]
        (GitCmd.checkoutNewBranch ("backup-before-split-" ++ toString pid)) = none) :
    execute_commit_splitting env pid auto_push groups =
      ⟨false, none, [],
        [GitCmd.revParseAbbrevHead,
         GitCmd.checkoutNewBranch ("backup-before-split-" ++ toString pid)]⟩ := by
  simp [execute_commit_splitting, runCmd, h1, h2]

/-- C5 witness: the abort on a concrete oracle that rejects branch creation,
with three pending groups none of which is touched. -/
theorem execute_backup_failure_aborts_witness :
    execute_commit_splitting envBackupFail 7 true [grp1, grp2, grp3] =
      ⟨false, none, [],
        [GitCmd.revParseAbbrevHead,
         GitCmd.checkoutNewBranch ("backup-before-split-" ++ toString 7)]⟩ :=
  execute_backup_failure_aborts envBackupFail 7 true [grp1, grp2, grp3] "main\n" rfl rfl

/-- C6: a failing commit subcommand is isolated to its group: the loop
always yields exactly one outcome per group whatever the oracle answers, and
on the concrete scenario where only the commit of the second of three groups
fails, the run reports committed, failed, committed, still returns overall
success, and reports the non-empty backup branch name. -/
theorem executor_commit_failure_isolated :
    (∀ (env : GitEnv) (hist : List GitCmd) (groups : List CommitGroup),
      (runGroups env hist groups).2.length = groups.length) ∧
    (execute_commit_splitting envMidFail 7 false [grp1, grp2, grp3]).outcomes =
      [GroupOutcome.committed, GroupOutcome.failed, GroupOutcome.committed] ∧
    (execute_commit_splitting envMidFail 7 false [grp1, grp2, grp3]).success = true ∧
    (execute_commit_splitting envMidFail 7 false [grp1, grp2, grp3]).backupBranch =
      some "backup-before-split-7" ∧
    "backup-before-split-7" ≠ "" := by
  refine ⟨fun env hist groups => runGroups_length env groups hist, ?_, ?_, ?_, ?_⟩
  · decide
  · decide
  · decide
  · decide

/-- C1: the groups returned by the grouping heuristic form a partition of the
input changes: the concatenation of the group file lists is a permutation of
the extracted changes (no duplicates, no omissions), the group sizes sum to
the number of extracted changes, every extracted change belongs to a group,
and the path sets of distinct groups are pairwise disjoint. -/
theorem group_changes_heuristic_partition
    (llm : List FileChange → String → String → Option String)
    (semantic_summary : String) (changes : List FileChange) :
    List.Perm
      (((group_changes_heuristic llm changes semantic_summary).map
        CommitGroup.files).flatten) changes ∧
    (((group_changes_heuristic llm changes semantic_summary).map
        (fun g => g.files.length)).sum = changes.length) ∧
    (∀ c ∈ changes, ∃ g ∈ group_changes_heuristic llm changes semantic_summary,
      c ∈ g.files) ∧
    List.Pairwise
      (fun g₁ g₂ => ∀ p, p ∈ g₁.files.map FileChange.file_path →
        p ∉ g₂.files.map FileChange.file_path)
      (group_changes_heuristic llm changes semantic_summary) := by
  have hfiles : (group_changes_heuristic llm changes semantic_summary).map
      CommitGroup.files = (buildGroups changes).map Prod.snd := by
    simp only [group_changes_heuristic, List.map_map]
    rfl
  have hperm : List.Perm
      (((group_changes_heuristic llm changes semantic_summary).map
        CommitGroup.files).flatten) changes := by
    rw [hfiles]
    have h := buildGroups_join_aux changes []
    simpa using h
  have hsum : ((group_changes_heuristic llm changes semantic_summary).map
      (fun g => g.files.length)).sum = changes.length := by
    have h1 : ((group_changes_heuristic llm changes semantic_summary).map
        (fun g => g.files.length)).sum =
        (((group_changes_heuristic llm changes semantic_summary).map
          CommitGroup.files).flatten).length := by
      rw [List.length_flatten, List.map_map]
      rfl
    rw [h1, hperm.length_eq]
  have hinv : ∀ b ∈ buildGroups changes, bucketInv b :=
    buildGroups_inv_aux changes [] (by simp)
  have hnodup : ((buildGroups changes).map Prod.fst).Nodup :=
    buildGroups_nodup_aux changes [] (by simp)
  have hkeys : List.Pairwise (fun b₁ b₂ : String × List FileChange => b₁.1 ≠ b₂.1)
      (buildGroups changes) := List.pairwise_map.mp hnodup
  have hpairB : List.Pairwise
      (fun b₁ b₂ : String × List FileChange =>
        ∀ p, p ∈ b₁.2.map FileChange.file_path → p ∉ b₂.2.map FileChange.file_path)
      (buildGroups changes) := by
    refine List.Pairwise.imp_of_mem ?_ hkeys
    intro b₁ b₂ hm₁ hm₂ hne p hp₁ hp₂
    obtain ⟨c₁, hc₁, hpc₁⟩ := List.mem_map.mp hp₁
    obtain ⟨c₂, hc₂, hpc₂⟩ := List.mem_map.mp hp₂
    have k₁ := hinv b₁ hm₁ c₁ hc₁
    have k₂ := hinv b₂ hm₂ c₂ hc₂
    apply hne
    rw [← k₁, ← k₂, hpc₁, hpc₂]
  refine ⟨hperm, hsum, ?_, ?_⟩
  · intro c hc
    have hmem : c ∈ (((group_changes_heuristic llm changes semantic_summary).map
        CommitGroup.files).flatten) := hperm.mem_iff.mpr hc
    obtain ⟨l, hl, hcl⟩ := List.mem_flatten.mp hmem
    obtain ⟨g, hg, rfl⟩ := List.mem_map.mp hl
    exact ⟨g, hg, hcl⟩
  · show List.Pairwise _ ((buildGroups changes).map _)
    refine List.pairwise_map.mpr ?_
    exact hpairB

/-- C1 witness: the size identity of the partition instantiated on two
concrete changes. -/
theorem group_changes_heuristic_partition_witness :
    ((group_changes_heuristic llm0 changes0 "").map (fun g => g.files.length)).sum =
      changes0.length :=
  (group_changes_heuristic_partition llm0 "" changes0).2.1

end CommitSplit
